import Mathlib

/-!
Formal model of the `tasks-crud` Go service: credential hashing, JWT
issuance/validation, the in-memory user and task repositories, the
authentication service, the authorization middleware, and configuration
loading.  Each definition is a shallow embedding of the corresponding Go
function; wall-clock time is passed explicitly as an integer number of unix
seconds, and the environment is passed as an explicit lookup function.
-/

namespace TasksCrud

/-! ### Models of Go standard-library string helpers

The Go code uses `strings.Split`, `strings.TrimSpace` and `strings.ToLower`
from the standard library (not part of this repository).  They are modelled
here over the character list of a string. -/

/-- Splits a character list at every occurrence of `sep`; an empty input
yields one empty field, matching Go `strings.Split` with a one-character
separator. -/
def splitChars (sep : Char) : List Char → List (List Char)
  | [] => [[]]
  | c :: cs =>
    let r := splitChars sep cs
    if c == sep then [] :: r
    else
      match r with
      | [] => [[c]]
      | h :: t => (c :: h) :: t

/-- Modelled from the spec: Go `strings.Split(s, sep)` for a one-character
separator, splitting at every occurrence and keeping empty fields. -/
def goSplit (sep : Char) (s : String) : List String :=
  (splitChars sep s.data).map (fun l => ⟨l⟩)

/-- ASCII whitespace recognizer used by the `TrimSpace` model. -/
def isSpaceChar (c : Char) : Bool :=
  c == ' ' || c == '\t' || c == '\n' || c == '\x0b' || c == '\x0c' || c == '\r'

/-- Modelled from the spec: Go `strings.TrimSpace`, dropping leading and
trailing whitespace. -/
def trimSpace (s : String) : String :=
  ⟨((s.data.dropWhile isSpaceChar).reverse.dropWhile isSpaceChar).reverse⟩

/-- Modelled from the spec: Go `strings.ToLower`, lowercasing every
character. -/
def toLowerGo (s : String) : String :=
  ⟨s.data.map Char.toLower⟩

/-! ### Association-list model of Go maps

The repositories keep `map[int]User`, `map[string]int` and `map[int]Task`
values; they are modelled as association lists where insertion replaces any
existing binding of the key. -/

/-- Map lookup: the value bound to `k`, if any. -/
def alookup {κ α : Type} [DecidableEq κ] (k : κ) : List (κ × α) → Option α
  | [] => none
  | p :: ps => if p.1 = k then some p.2 else alookup k ps

/-- Map deletion: removes every binding of `k`. -/
def aerase {κ α : Type} [DecidableEq κ] (k : κ) (m : List (κ × α)) : List (κ × α) :=
  m.filter (fun p => p.1 ≠ k)

/-- Map insertion: binds `k` to `v`, replacing any previous binding. -/
def ainsert {κ α : Type} [DecidableEq κ] (k : κ) (v : α) (m : List (κ × α)) : List (κ × α) :=
  (k, v) :: aerase k m

/-! ### Password hashing (`golang.org/x/crypto/bcrypt`)

`HashPassword` and `VerifyPassword` in `auth_service.go` call into the
external bcrypt library.  It is modelled symbolically: a hash is an opaque
value determined by the cost, the salt and the hashed password, comparison
recomputes and checks the password, and two distinct passwords never
collide (the spec's "with overwhelming probability" idealized to
certainty). -/

/-- Modelled from the spec: an opaque adaptive salted hash string produced by
bcrypt, represented by the data that determines it. -/
structure BcryptHash where
  cost : Int
  salt : Nat
  hashed : String
deriving DecidableEq

/-- Modelled from the spec: `bcrypt.GenerateFromPassword` with an explicit
salt (the library draws the salt from its RNG). -/
def bcryptGenerateFromPassword (password : String) (cost : Int) (salt : Nat) : BcryptHash :=
  { cost := cost, salt := salt, hashed := password }

/-- Modelled from the spec: `bcrypt.CompareHashAndPassword`, the
constant-time recompute-and-compare; `true` means match. -/
def bcryptCompareHashAndPassword (h : BcryptHash) (password : String) : Bool :=
  h.hashed == password

/-! ### Domain types (`internal/domain/user.go`, `internal/domain/task.go`) -/

/-- A stored user (`domain.User`); `createdAt` is unix seconds. -/
structure User where
  id : Int
  username : String
  email : String
  passwordHash : BcryptHash
  createdAt : Int
deriving DecidableEq

/-- Registration request body (`domain.CreateUserRequest`). -/
structure CreateUserRequest where
  username : String
  email : String
  password : String
deriving DecidableEq

/-- Login request body (`domain.LoginRequest`). -/
structure LoginRequest where
  email : String
  password : String
deriving DecidableEq

/-- A stored task (`domain.Task`). -/
structure Task where
  id : Int
  title : String
  completed : Bool
  createdAt : Int
deriving DecidableEq

/-- Task creation request body (`domain.CreateTaskRequest`). -/
structure CreateTaskRequest where
  title : String
deriving DecidableEq

/-! ### Configuration (`internal/config/config.go`) -/

/-- Runtime configuration (`config.Config`); `jwtExpiry` is a duration in
seconds. -/
structure Config where
  port : Int
  env : String
  jwtSecret : String
  jwtExpiry : Int
  bcryptCost : Int
deriving DecidableEq

/-- The compiled-in default signing secret in `config.Load`. -/
def defaultJWTSecret : String := "your-secret-key-change-in-production"

/-- `config.getEnv`: the environment value under `key`, or `defaultValue`
when the variable is unset. -/
def getEnv (lookup : String → Option String) (key defaultValue : String) : String :=
  match lookup key with
  | some v => v
  | none => defaultValue

/-- `config.getEnvAsInt`; `atoi` models Go `strconv.Atoi`. -/
def getEnvAsInt (lookup : String → Option String) (atoi : String → Option Int)
    (key : String) (defaultValue : Int) : Int :=
  match lookup key with
  | some v =>
    match atoi v with
    | some n => n
    | none => defaultValue
  | none => defaultValue

/-- `config.getEnvAsDuration`; `parseDuration` models Go
`time.ParseDuration`, returning seconds. -/
def getEnvAsDuration (lookup : String → Option String) (parseDuration : String → Option Int)
    (key : String) (defaultValue : Int) : Int :=
  match lookup key with
  | some v =>
    match parseDuration v with
    | some d => d
    | none => defaultValue
  | none => defaultValue

/-- `config.Load`: reads the configuration from the environment and panics
(modelled as `Except.error`) when the environment is `production` while the
signing secret is still the default. -/
def Load (lookup : String → Option String) (atoi parseDuration : String → Option Int) :
    Except String Config :=
  let port := getEnvAsInt lookup atoi "PORT" 8080
  let env := getEnv lookup "ENV" "development"
  let jwtSecret := getEnv lookup "JWT_SECRET" defaultJWTSecret
  let jwtExpiry := getEnvAsDuration lookup parseDuration "JWT_EXPIRY" 86400
  let bcryptCost := getEnvAsInt lookup atoi "BCRYPT_COST" 12
  if env == "production" && jwtSecret == defaultJWTSecret then
    .error "JWT_SECRET must be set in production environment"
  else
    .ok { port := port, env := env, jwtSecret := jwtSecret,
          jwtExpiry := jwtExpiry, bcryptCost := bcryptCost }

/-! ### JWT issuance and validation (`internal/service/auth_service.go`,
`github.com/golang-jwt/jwt/v5`)

The token mechanics (HS256 signing, signature verification, registered
claim validation) live in the external `golang-jwt/jwt/v5` library.  They
are modelled symbolically: a signature is an ideal MAC tag fully determined
by the algorithm, the key and the signed claim set (the signature covers
header and payload), so tampering with any of them is always detected and
there are no collisions across keys.  The v5 parser's order is kept:
algorithm check (the key function), then signature verification, then
registered-claim validation with expiry checked first; its time window is
closed on both ends (`now ≤ exp` and `now ≥ nbf`). -/

/-- JWT signing algorithms that can appear in a token header. -/
inductive JwtAlg
  | HS256
  | HS384
  | HS512
  | RS256
  | ES256
  | algNone
deriving DecidableEq

/-- Whether the algorithm belongs to the HMAC (`jwt.SigningMethodHMAC`)
family, the test made by the key function in `ValidateToken`. -/
def JwtAlg.isHMAC : JwtAlg → Bool
  | .HS256 | .HS384 | .HS512 => true
  | _ => false

/-- The claim set of `service.Claims`: the custom fields plus the embedded
`jwt.RegisteredClaims`; times are unix seconds. -/
structure Claims where
  userID : Int
  username : String
  email : String
  expiresAt : Int
  issuedAt : Int
  notBefore : Int
  issuer : String
  subject : String
deriving DecidableEq

/-- Modelled from the spec: an ideal keyed-MAC tag over header and payload,
fully determined by the algorithm, the key and the signed claims. -/
structure MacTag where
  alg : JwtAlg
  key : String
  message : Claims
deriving DecidableEq

/-- Modelled from the spec: producing the keyed-MAC signature over the
token's header (algorithm) and payload (claims). -/
def hmacSign (alg : JwtAlg) (key : String) (message : Claims) : MacTag :=
  { alg := alg, key := key, message := message }

/-- A signed token: the header's algorithm field, the payload and the
signature segment. -/
structure Token where
  alg : JwtAlg
  claims : Claims
  sig : MacTag
deriving DecidableEq

/-- The distinguishable failure kinds of token validation. -/
inductive AuthError
  | badAlgorithm
  | invalidSignature
  | expired
  | usedBeforeIssued
  | notYetValid
deriving DecidableEq

/-- `AuthService.GenerateToken`: builds the claim set with
`exp = now + cfg.jwtExpiry`, `iat = nbf = now`, issuer `todo-api` and
subject `strconv.Itoa(user.ID)`, then signs it with HS256 under the
configured secret. -/
def GenerateToken (cfg : Config) (user : User) (now : Int) : Token :=
  let claims : Claims :=
    { userID := user.id
      username := user.username
      email := user.email
      expiresAt := now + cfg.jwtExpiry
      issuedAt := now
      notBefore := now
      issuer := "todo-api"
      subject := toString user.id }
  { alg := .HS256, claims := claims, sig := hmacSign .HS256 cfg.jwtSecret claims }

/-- The key function passed to `jwt.ParseWithClaims` inside
`ValidateToken`: it rejects any non-HMAC signing method and otherwise
returns the configured secret, whatever the HMAC variant. -/
def keyFunc (cfg : Config) (alg : JwtAlg) : Except AuthError String :=
  if alg.isHMAC then .ok cfg.jwtSecret else .error .badAlgorithm

/-- Registered-claim validation of `jwt/v5`: expiry first (valid while
`now ≤ exp`), then issued-at and not-before (valid once `now ≥ iat` and
`now ≥ nbf`). -/
def validateClaims (c : Claims) (now : Int) : Except AuthError Unit :=
  if c.expiresAt < now then .error .expired
  else if now < c.issuedAt then .error .usedBeforeIssued
  else if now < c.notBefore then .error .notYetValid
  else .ok ()

/-- `AuthService.ValidateToken`: algorithm check via the key function,
signature verification against the configured secret, then registered-claim
validation; only then are the claims returned. -/
def ValidateToken (cfg : Config) (tok : Token) (now : Int) : Except AuthError Claims :=
  match keyFunc cfg tok.alg with
  | .error e => .error e
  | .ok key =>
    if tok.sig = hmacSign tok.alg key tok.claims then
      match validateClaims tok.claims now with
      | .error e => .error e
      | .ok _ => .ok tok.claims
    else .error .invalidSignature

/-! ### In-memory user repository (`main.go`, `InMemoryUserRepository`) -/

/-- The state of `InMemoryUserRepository`: the `users` map keyed by id, the
`emails` index keyed by email, and the id counter. -/
structure UserRepoState where
  users : List (Int × User)
  emails : List (String × Int)
  currentID : Int
deriving DecidableEq

namespace InMemoryUserRepository

/-- `InMemoryUserRepository.Create`: rejects a duplicate email (via the
`emails` index) or a duplicate username (by scanning `users`), otherwise
stores the user under a fresh id and advances the counter. -/
def Create (s : UserRepoState) (user : User) (now : Int) :
    UserRepoState × Except String User :=
  if (alookup user.email s.emails).isSome then
    (s, .error ("user with email " ++ user.email ++ " already exists"))
  else if s.users.any (fun p => p.2.username == user.username) then
    (s, .error ("user with username " ++ user.username ++ " already exists"))
  else
    let stored : User := { user with id := s.currentID, createdAt := now }
    ({ users := ainsert s.currentID stored s.users
       emails := ainsert user.email s.currentID s.emails
       currentID := s.currentID + 1 },
     .ok stored)

/-- `InMemoryUserRepository.GetByEmail`: id lookup through the `emails`
index followed by the `users` map. -/
def GetByEmail (s : UserRepoState) (email : String) : Except String User :=
  match alookup email s.emails with
  | none => .error ("user with email " ++ email ++ " not found")
  | some userID =>
    match alookup userID s.users with
    | none => .error "user not found"
    | some user => .ok user

/-- `InMemoryUserRepository.GetByID`. -/
def GetByID (s : UserRepoState) (id : Int) : Except String User :=
  match alookup id s.users with
  | none => .error ("user with id " ++ toString id ++ " not found")
  | some user => .ok user

/-- `InMemoryUserRepository.Update`: requires the id to exist; when the
email changes, requires the new email to be unused and rewrites the
`emails` index. -/
def Update (s : UserRepoState) (user : User) : UserRepoState × Except String Unit :=
  match alookup user.id s.users with
  | none => (s, .error ("user with id " ++ toString user.id ++ " not found"))
  | some oldUser =>
    if oldUser.email == user.email then
      ({ s with users := ainsert user.id user s.users }, .ok ())
    else if (alookup user.email s.emails).isSome then
      (s, .error ("user with email " ++ user.email ++ " already exists"))
    else
      ({ users := ainsert user.id user s.users
         emails := ainsert user.email user.id (aerase oldUser.email s.emails)
         currentID := s.currentID },
       .ok ())

/-- `InMemoryUserRepository.Delete`: removes the user and its email-index
entry. -/
def Delete (s : UserRepoState) (id : Int) : UserRepoState × Except String Unit :=
  match alookup id s.users with
  | none => (s, .error ("user with id " ++ toString id ++ " not found"))
  | some user =>
    ({ users := aerase id s.users
       emails := aerase user.email s.emails
       currentID := s.currentID },
     .ok ())

end InMemoryUserRepository

/-- The demo `admin` user seeded by `NewInMemoryUserRepository`; its stored
bcrypt hash is the cost-12 hash of `admin123`. -/
def adminUser : User :=
  { id := 1
    username := "admin"
    email := "admin@example.com"
    passwordHash := { cost := 12, salt := 0, hashed := "admin123" }
    createdAt := 0 }

/-- The state built by `NewInMemoryUserRepository`: the seeded `admin`
user, its email-index entry, and the counter at 2. -/
def initialUserRepo : UserRepoState :=
  { users := [(1, adminUser)]
    emails := [("admin@example.com", 1)]
    currentID := 2 }

/-- The user-repository states reachable from `NewInMemoryUserRepository`
through the repository's mutating operations. -/
inductive Reachable : UserRepoState → Prop
  | init : Reachable initialUserRepo
  | create (s : UserRepoState) (user : User) (now : Int) :
      Reachable s → Reachable (InMemoryUserRepository.Create s user now).1
  | update (s : UserRepoState) (user : User) :
      Reachable s → Reachable (InMemoryUserRepository.Update s user).1
  | delete (s : UserRepoState) (id : Int) :
      Reachable s → Reachable (InMemoryUserRepository.Delete s id).1

/-! ### Authentication service (`internal/service/auth_service.go`) -/

/-- `AuthService.HashPassword`: bcrypt with the configured cost; the salt
the library draws internally is passed explicitly. -/
def HashPassword (cfg : Config) (salt : Nat) (password : String) : BcryptHash :=
  bcryptGenerateFromPassword password cfg.bcryptCost salt

/-- `AuthService.VerifyPassword`: constant-time bcrypt comparison, `true`
on match. -/
def VerifyPassword (hashedPassword : BcryptHash) (password : String) : Bool :=
  bcryptCompareHashAndPassword hashedPassword password

/-- `AuthService.Register`: fails when `GetByEmail` finds the email,
otherwise hashes the password and stores a new user via `Create`. -/
def Register (cfg : Config) (s : UserRepoState) (req : CreateUserRequest)
    (salt : Nat) (now : Int) : UserRepoState × Except String User :=
  match InMemoryUserRepository.GetByEmail s req.email with
  | .ok _ => (s, .error "user with this email already exists")
  | .error _ =>
    let hashedPassword := HashPassword cfg salt req.password
    let user : User :=
      { id := 0, username := req.username, email := req.email,
        passwordHash := hashedPassword, createdAt := now }
    match InMemoryUserRepository.Create s user now with
    | (s2, .ok stored) => (s2, .ok stored)
    | (s2, .error e) => (s2, .error ("failed to create user: " ++ e))

/-- `AuthService.Login`: a missing email and a failed password check both
return the same `invalid credentials` error. -/
def Login (s : UserRepoState) (req : LoginRequest) : Except String User :=
  match InMemoryUserRepository.GetByEmail s req.email with
  | .error _ => .error "invalid credentials"
  | .ok user =>
    if VerifyPassword user.passwordHash req.password then .ok user
    else .error "invalid credentials"

/-! ### Authorization middleware (`internal/middleware/auth.go`) -/

/-- The observable outcome of the middleware on one request: an HTTP error
response, or the request forwarded with the verified user id and username
attached to its context. -/
inductive AuthOutcome
  | rejected (status : Nat) (body : String)
  | forwarded (userID : Int) (username : String)
deriving DecidableEq

/-- Response body when the `Authorization` header is absent. -/
def msgMissingHeader : String := "\x7b\"error\": \"Authorization header is required\"\x7d"

/-- Response body when the header is not an exact `Bearer <token>` pair. -/
def msgBadFormat : String :=
  "\x7b\"error\": \"Invalid authorization format. Use: Bearer <token>\"\x7d"

/-- Response body when token validation fails, whatever the reason. -/
def msgInvalidToken : String := "\x7b\"error\": \"Invalid or expired token\"\x7d"

/-- `middleware.JWTAuthMiddleware` on one request: `authHeader` is the
value of `r.Header.Get("Authorization")` (empty when the header is
missing), and `validate` is the service's token validation keyed by the raw
token string.  All rejections carry HTTP status 401. -/
def JWTAuthMiddleware (validate : String → Except AuthError Claims)
    (authHeader : String) : AuthOutcome :=
  if authHeader == "" then .rejected 401 msgMissingHeader
  else
    match goSplit ' ' authHeader with
    | [scheme, tokenString] =>
      if scheme == "Bearer" then
        match validate tokenString with
        | .error _ => .rejected 401 msgInvalidToken
        | .ok claims => .forwarded claims.userID claims.username
      else .rejected 401 msgBadFormat
    | _ => .rejected 401 msgBadFormat

/-! ### Task service (`internal/service/task_service.go`) with the
in-memory task repository (`InMemoryTaskRepository`) -/

/-- The state of `InMemoryTaskRepository`: the `tasks` map and the id
counter. -/
structure TaskRepoState where
  tasks : List (Int × Task)
  currentID : Int
deriving DecidableEq

/-- `InMemoryTaskRepository.GetAll`: every stored task. -/
def TaskRepoGetAll (s : TaskRepoState) : List Task :=
  s.tasks.map (fun p => p.2)

/-- `InMemoryTaskRepository.Create`: stores the task under a fresh id. -/
def TaskRepoCreate (s : TaskRepoState) (t : Task) (now : Int) : TaskRepoState × Task :=
  let stored : Task := { t with id := s.currentID, createdAt := now }
  ({ tasks := ainsert s.currentID stored s.tasks, currentID := s.currentID + 1 }, stored)

/-- `service.validateCreateRequest`: non-blank title of at most 200
bytes. -/
def validateCreateRequest (req : CreateTaskRequest) : Except String Unit :=
  if trimSpace req.title == "" then .error "title is required"
  else if req.title.utf8ByteSize > 200 then .error "title is too long (max 200 characters)"
  else .ok ()

/-- `TaskService.isDuplicateTitle`: whether some stored task's title equals
the given one after both are trimmed and lowercased. -/
def isDuplicateTitle (s : TaskRepoState) (title : String) : Bool :=
  let cleanTitle := toLowerGo (trimSpace title)
  (TaskRepoGetAll s).any (fun task => toLowerGo (trimSpace task.title) == cleanTitle)

/-- `TaskService.CreateTask`: validation, then the duplicate-title check on
the trimmed title, then repository creation of the trimmed, not-completed
task. -/
def CreateTask (s : TaskRepoState) (req : CreateTaskRequest) (now : Int) :
    TaskRepoState × Except String Task :=
  match validateCreateRequest req with
  | .error e => (s, .error e)
  | .ok _ =>
    let task : Task := { id := 0, title := trimSpace req.title, completed := false, createdAt := 0 }
    if isDuplicateTitle s task.title then
      (s, .error ("task with title \x27" ++ task.title ++ "\x27 already exists"))
    else
      let created := TaskRepoCreate s task now
      (created.1, .ok created.2)

/-! ### Lemmas about the association-list map model -/

/-- Keys of an association list are pairwise distinct (the Go-map key
uniqueness). -/
def KeysPW {κ α : Type} [DecidableEq κ] (m : List (κ × α)) : Prop :=
  m.Pairwise (fun p q => p.1 ≠ q.1)

/-- Representation invariant of `InMemoryUserRepository`: both maps have
unique keys, the `emails` map is exactly the email index of `users`, and
the id counter is strictly above every stored id. -/
structure Inv (s : UserRepoState) : Prop where
  usersKeys : KeysPW s.users
  emailsKeys : KeysPW s.emails
  idx : ∀ p ∈ s.users, alookup p.2.email s.emails = some p.1
  rev : ∀ q ∈ s.emails, ∃ u, alookup q.2 s.users = some u ∧ u.email = q.1
  fresh : ∀ p ∈ s.users, p.1 < s.currentID

/-! ### Concrete values used to instantiate the theorems -/

/-- A development configuration with a 0-second token lifetime. -/
def cfg0 : Config :=
  { port := 8080, env := "development", jwtSecret := "s1", jwtExpiry := 0, bcryptCost := 12 }

/-- The same configuration under a different signing secret. -/
def cfg1 : Config := { cfg0 with jwtSecret := "s2" }

/-- A sample registered user. -/
def user0 : User :=
  { id := 1
    username := "alice"
    email := "a@x.com"
    passwordHash := { cost := 12, salt := 0, hashed := "longenough1" }
    createdAt := 0 }

/-- A token whose header declares the non-HMAC algorithm RS256. -/
def tokBad : Token :=
  { alg := .RS256
    claims := (GenerateToken cfg0 user0 0).claims
    sig := hmacSign .RS256 "s1" (GenerateToken cfg0 user0 0).claims }

/-- A validation function that fails on every token. -/
def vFail : String → Except AuthError Claims := fun _ => .error .invalidSignature

/-- A user whose username collides with the seeded `admin` user while its
email is fresh. -/
def userDupName : User :=
  { id := 0
    username := "admin"
    email := "new@x.com"
    passwordHash := { cost := 12, salt := 0, hashed := "pw12345678" }
    createdAt := 0 }

/-- An empty task store. -/
def emptyTaskRepo : TaskRepoState := { tasks := [], currentID := 1 }

/-- A task store holding one task titled `Buy Milk`. -/
def taskRepo0 : TaskRepoState :=
  { tasks := [(1, { id := 1, title := "Buy Milk", completed := false, createdAt := 0 })]
    currentID := 2 }

/-- An environment where only `ENV` is set, to `production`. -/
def envProd : String → Option String :=
  fun key => if key = "ENV" then some "production" else none

theorem alookup_mem {κ α : Type} [DecidableEq κ] {k : κ} {v : α}
    {m : List (κ × α)} (h : alookup k m = some v) : (k, v) ∈ m := by
  induction m with
  | nil => simp [alookup] at h
  | cons p ps ih =>
    rw [alookup] at h
    split at h
    · next heq =>
      have hv : p.2 = v := by injection h
      have : (k, v) = p := by cases p; cases heq; cases hv; rfl
      rw [this]
      exact List.mem_cons_self p ps
    · exact List.mem_cons_of_mem _ (ih h)

theorem alookup_eq_none {κ α : Type} [DecidableEq κ] {k : κ}
    {m : List (κ × α)} (h : ∀ p ∈ m, p.1 ≠ k) : alookup k m = none := by
  induction m with
  | nil => rfl
  | cons p ps ih =>
    rw [alookup, if_neg (h p (List.mem_cons_self p ps))]
    exact ih (fun q hq => h q (List.mem_cons_of_mem _ hq))

theorem ne_of_alookup_none {κ α : Type} [DecidableEq κ] {k : κ}
    {m : List (κ × α)} (h : alookup k m = none) : ∀ p ∈ m, p.1 ≠ k := by
  intro p hp heq
  induction m with
  | nil => cases hp
  | cons q qs ih =>
    rw [alookup] at h
    split at h
    · cases h
    · next hne =>
      rcases List.mem_cons.mp hp with hpq | hpm
      · exact hne (hpq ▸ heq)
      · exact ih h hpm

theorem mem_aerase {κ α : Type} [DecidableEq κ] {k : κ} {p : κ × α}
    {m : List (κ × α)} : p ∈ aerase k m ↔ p ∈ m ∧ p.1 ≠ k := by
  simp [aerase, List.mem_filter]

theorem aerase_eq_self {κ α : Type} [DecidableEq κ] {k : κ}
    {m : List (κ × α)} (h : ∀ p ∈ m, p.1 ≠ k) : aerase k m = m := by
  induction m with
  | nil => rfl
  | cons p ps ih =>
    have hp : p.1 ≠ k := h p (List.mem_cons_self p ps)
    simp only [aerase, List.filter_cons]
    rw [if_pos (by simpa using hp)]
    have := ih (fun q hq => h q (List.mem_cons_of_mem _ hq))
    simp only [aerase] at this
    rw [this]

theorem alookup_of_mem_keysPW {κ α : Type} [DecidableEq κ] {k : κ} {v : α}
    {m : List (κ × α)} (hpw : KeysPW m) (hm : (k, v) ∈ m) :
    alookup k m = some v := by
  induction m with
  | nil => cases hm
  | cons p ps ih =>
    rcases List.mem_cons.mp hm with hpq | hpm
    · rw [alookup, if_pos (by rw [← hpq])]
      cases hpq; rfl
    · rw [alookup]
      have hkne : p.1 ≠ k := by
        intro heq
        exact (List.pairwise_cons.mp hpw).1 (k, v) hpm (by simpa using heq)
      rw [if_neg hkne]
      exact ih (List.pairwise_cons.mp hpw).2 hpm

theorem alookup_aerase_ne {κ α : Type} [DecidableEq κ] {k k' : κ}
    {m : List (κ × α)} (h : k ≠ k') : alookup k (aerase k' m) = alookup k m := by
  induction m with
  | nil => rfl
  | cons p ps ih =>
    by_cases hp : p.1 = k'
    · have h1 : aerase k' (p :: ps) = aerase k' ps := by
        simp only [aerase, List.filter_cons]
        rw [if_neg (by simpa using hp)]
      have h2 : alookup k (p :: ps) = alookup k ps := by
        rw [alookup, if_neg (fun heq : p.1 = k => h (heq ▸ hp))]
      rw [h1, ih, h2]
    · have h1 : aerase k' (p :: ps) = p :: aerase k' ps := by
        simp only [aerase, List.filter_cons]
        rw [if_pos (by simpa using hp)]
      rw [h1, alookup, alookup, ih]

theorem keysPW_aerase {κ α : Type} [DecidableEq κ] {k : κ}
    {m : List (κ × α)} (h : KeysPW m) : KeysPW (aerase k m) :=
  List.Pairwise.filter _ h

theorem keysPW_ainsert {κ α : Type} [DecidableEq κ] {k : κ} {v : α}
    {m : List (κ × α)} (h : KeysPW m) : KeysPW (ainsert k v m) := by
  refine List.pairwise_cons.mpr ⟨?_, keysPW_aerase h⟩
  intro p hp
  exact fun heq => (mem_aerase.mp hp).2 (by simpa using heq.symm)

theorem mem_ainsert {κ α : Type} [DecidableEq κ] {k : κ} {v : α} {p : κ × α}
    {m : List (κ × α)} : p ∈ ainsert k v m ↔ p = (k, v) ∨ (p ∈ m ∧ p.1 ≠ k) := by
  simp [ainsert, mem_aerase, List.mem_cons]

theorem alookup_ainsert_self {κ α : Type} [DecidableEq κ] {k : κ} {v : α}
    {m : List (κ × α)} : alookup k (ainsert k v m) = some v := by
  rw [ainsert, alookup, if_pos rfl]

theorem alookup_ainsert_ne {κ α : Type} [DecidableEq κ] {k k' : κ} {v : α}
    {m : List (κ × α)} (h : k' ≠ k) : alookup k' (ainsert k v m) = alookup k' m := by
  rw [ainsert, alookup, if_neg (fun heq => h heq.symm)]
  exact alookup_aerase_ne h

/-! ### The user-repository representation invariant -/

theorem inv_init : Inv initialUserRepo := by
  refine ⟨?_, ?_, ?_, ?_, ?_⟩
  · exact List.pairwise_singleton _ _
  · exact List.pairwise_singleton _ _
  · intro p hp
    rw [List.mem_singleton.mp hp]
    decide
  · intro q hq
    rw [List.mem_singleton.mp hq]
    exact ⟨adminUser, by decide, by decide⟩
  · intro p hp
    rw [List.mem_singleton.mp hp]
    decide

/-- No two entries of a store satisfying the invariant share an email. -/
theorem Inv.emailsDistinct {s : UserRepoState} (h : Inv s) :
    s.users.Pairwise (fun p q => p.2.email ≠ q.2.email) := by
  refine h.usersKeys.imp_of_mem ?_
  intro p q hp hq hne heq
  have h1 := h.idx p hp
  have h2 := h.idx q hq
  rw [heq, h2] at h1
  exact hne (Option.some.inj h1).symm

theorem create_success_eq (s : UserRepoState) (u : User) (now : Int)
    (halo : alookup u.email s.emails = none)
    (hname : s.users.any (fun p => p.2.username == u.username) = false) :
    InMemoryUserRepository.Create s u now =
      ({ users := ainsert s.currentID { u with id := s.currentID, createdAt := now } s.users
         emails := ainsert u.email s.currentID s.emails
         currentID := s.currentID + 1 },
       Except.ok { u with id := s.currentID, createdAt := now }) := by
  unfold InMemoryUserRepository.Create
  rw [halo]
  simp [hname]

theorem create_dup_email_eq (s : UserRepoState) (u : User) (now : Int) (uid : Int)
    (halo : alookup u.email s.emails = some uid) :
    InMemoryUserRepository.Create s u now =
      (s, Except.error ("user with email " ++ u.email ++ " already exists")) := by
  unfold InMemoryUserRepository.Create
  rw [halo]
  rfl

theorem create_dup_username_eq (s : UserRepoState) (u : User) (now : Int)
    (halo : alookup u.email s.emails = none)
    (hname : s.users.any (fun p => p.2.username == u.username) = true) :
    InMemoryUserRepository.Create s u now =
      (s, Except.error ("user with username " ++ u.username ++ " already exists")) := by
  unfold InMemoryUserRepository.Create
  rw [halo]
  simp [hname]

theorem inv_create (s : UserRepoState) (u : User) (now : Int) (h : Inv s) :
    Inv (InMemoryUserRepository.Create s u now).1 := by
  rcases halo : alookup u.email s.emails with _ | uid
  · rcases hname : s.users.any (fun p => p.2.username == u.username) with _ | _
    · rw [create_success_eq s u now halo hname]
      have hfr : ∀ p ∈ s.users, p.1 ≠ s.currentID :=
        fun p hp => Int.ne_of_lt (h.fresh p hp)
      refine ⟨keysPW_ainsert h.usersKeys, keysPW_ainsert h.emailsKeys, ?_, ?_, ?_⟩
      · intro p hp
        rcases mem_ainsert.mp hp with rfl | ⟨hpm, hpne⟩
        · exact alookup_ainsert_self
        · have hne : p.2.email ≠ u.email := by
            intro heq
            have := h.idx p hpm
            rw [heq, halo] at this
            cases this
          rw [alookup_ainsert_ne hne]
          exact h.idx p hpm
      · intro q hq
        rcases mem_ainsert.mp hq with rfl | ⟨hqm, hqne⟩
        · exact ⟨{ u with id := s.currentID, createdAt := now }, alookup_ainsert_self, rfl⟩
        · obtain ⟨w, hw, hwe⟩ := h.rev q hqm
          have hne : q.2 ≠ s.currentID := hfr (q.2, w) (alookup_mem hw)
          exact ⟨w, by rw [alookup_ainsert_ne hne]; exact hw, hwe⟩
      · intro p hp
        rcases mem_ainsert.mp hp with rfl | ⟨hpm, hpne⟩
        · exact lt_add_one s.currentID
        · exact lt_trans (h.fresh p hpm) (lt_add_one s.currentID)
    · rw [create_dup_username_eq s u now halo hname]
      exact h
  · rw [create_dup_email_eq s u now uid halo]
    exact h

theorem update_same_email_eq (s : UserRepoState) (u : User) (oldUser : User)
    (holo : alookup u.id s.users = some oldUser)
    (heq : (oldUser.email == u.email) = true) :
    InMemoryUserRepository.Update s u =
      ({ s with users := ainsert u.id u s.users }, Except.ok ()) := by
  unfold InMemoryUserRepository.Update
  rw [holo]
  simp [heq]

theorem update_change_email_eq (s : UserRepoState) (u : User) (oldUser : User)
    (holo : alookup u.id s.users = some oldUser)
    (hne : (oldUser.email == u.email) = false)
    (halo : alookup u.email s.emails = none) :
    InMemoryUserRepository.Update s u =
      ({ users := ainsert u.id u s.users
         emails := ainsert u.email u.id (aerase oldUser.email s.emails)
         currentID := s.currentID },
       Except.ok ()) := by
  unfold InMemoryUserRepository.Update
  rw [holo]
  simp [hne, halo]

theorem update_dup_email_eq (s : UserRepoState) (u : User) (oldUser : User) (uid : Int)
    (holo : alookup u.id s.users = some oldUser)
    (hne : (oldUser.email == u.email) = false)
    (halo : alookup u.email s.emails = some uid) :
    InMemoryUserRepository.Update s u =
      (s, Except.error ("user with email " ++ u.email ++ " already exists")) := by
  unfold InMemoryUserRepository.Update
  rw [holo]
  simp [hne, halo]

theorem inv_update (s : UserRepoState) (u : User) (h : Inv s) :
    Inv (InMemoryUserRepository.Update s u).1 := by
  rcases holo : alookup u.id s.users with _ | oldUser
  · have : (InMemoryUserRepository.Update s u).1 = s := by
      unfold InMemoryUserRepository.Update
      rw [holo]
    rw [this]
    exact h
  · have hmemOld : (u.id, oldUser) ∈ s.users := alookup_mem holo
    rcases hbeq : (oldUser.email == u.email) with _ | _
    · rcases halo : alookup u.email s.emails with _ | uid
      · -- email changes to an unused one
        rw [update_change_email_eq s u oldUser holo hbeq halo]
        have hneOld : oldUser.email ≠ u.email := by
          intro heq
          rw [heq] at hbeq
          simp at hbeq
        refine ⟨keysPW_ainsert h.usersKeys,
                keysPW_ainsert (keysPW_aerase h.emailsKeys), ?_, ?_, ?_⟩
        · intro p hp
          rcases mem_ainsert.mp hp with rfl | ⟨hpm, hpne⟩
          · exact alookup_ainsert_self
          · have hpu : p.2.email ≠ u.email := by
              intro heq
              have := h.idx p hpm
              rw [heq, halo] at this
              cases this
            have hpo : p.2.email ≠ oldUser.email := by
              intro heq
              have h1 := h.idx p hpm
              have h2 := h.idx (u.id, oldUser) hmemOld
              rw [heq, h2] at h1
              exact hpne (Option.some.inj h1).symm
            rw [alookup_ainsert_ne hpu, alookup_aerase_ne hpo]
            exact h.idx p hpm
        · intro q hq
          rcases mem_ainsert.mp hq with rfl | ⟨hqm, hqne⟩
          · exact ⟨u, alookup_ainsert_self, rfl⟩
          · obtain ⟨hq2, hq3⟩ := mem_aerase.mp hqm
            obtain ⟨w, hw, hwe⟩ := h.rev q hq2
            have hqid : q.2 ≠ u.id := by
              intro heq
              rw [heq, holo] at hw
              exact hq3 (hwe ▸ congrArg User.email (Option.some.inj hw)).symm
            exact ⟨w, by rw [alookup_ainsert_ne hqid]; exact hw, hwe⟩
        · intro p hp
          rcases mem_ainsert.mp hp with rfl | ⟨hpm, hpne⟩
          · exact h.fresh (u.id, oldUser) hmemOld
          · exact h.fresh p hpm
      · rw [update_dup_email_eq s u oldUser uid holo hbeq halo]
        exact h
    · -- email unchanged
      rw [update_same_email_eq s u oldUser holo hbeq]
      have heq : oldUser.email = u.email := by simpa using hbeq
      refine ⟨keysPW_ainsert h.usersKeys, h.emailsKeys, ?_, ?_, ?_⟩
      · intro p hp
        rcases mem_ainsert.mp hp with rfl | ⟨hpm, hpne⟩
        · have := h.idx (u.id, oldUser) hmemOld
          rw [heq] at this
          exact this
        · exact h.idx p hpm
      · intro q hq
        obtain ⟨w, hw, hwe⟩ := h.rev q hq
        by_cases hqid : q.2 = u.id
        · refine ⟨u, ?_, ?_⟩
          · rw [hqid]
            exact alookup_ainsert_self
          · rw [hqid, holo] at hw
            have hwo : w = oldUser := (Option.some.inj hw).symm
            rw [← heq, ← hwe, hwo]
        · exact ⟨w, by rw [alookup_ainsert_ne hqid]; exact hw, hwe⟩
      · intro p hp
        rcases mem_ainsert.mp hp with rfl | ⟨hpm, hpne⟩
        · exact h.fresh (u.id, oldUser) hmemOld
        · exact h.fresh p hpm

theorem delete_eq (s : UserRepoState) (id : Int) (user : User)
    (holo : alookup id s.users = some user) :
    InMemoryUserRepository.Delete s id =
      ({ users := aerase id s.users
         emails := aerase user.email s.emails
         currentID := s.currentID },
       Except.ok ()) := by
  unfold InMemoryUserRepository.Delete
  rw [holo]

theorem inv_delete (s : UserRepoState) (id : Int) (h : Inv s) :
    Inv (InMemoryUserRepository.Delete s id).1 := by
  rcases holo : alookup id s.users with _ | user
  · have : (InMemoryUserRepository.Delete s id).1 = s := by
      unfold InMemoryUserRepository.Delete
      rw [holo]
    rw [this]
    exact h
  · have hmemOld : (id, user) ∈ s.users := alookup_mem holo
    rw [delete_eq s id user holo]
    refine ⟨keysPW_aerase h.usersKeys, keysPW_aerase h.emailsKeys, ?_, ?_, ?_⟩
    · intro p hp
      obtain ⟨hpm, hpne⟩ := mem_aerase.mp hp
      have hpo : p.2.email ≠ user.email := by
        intro heq
        have h1 := h.idx p hpm
        have h2 := h.idx (id, user) hmemOld
        rw [heq, h2] at h1
        exact hpne (Option.some.inj h1).symm
      rw [alookup_aerase_ne hpo]
      exact h.idx p hpm
    · intro q hq
      obtain ⟨hqm, hqne⟩ := mem_aerase.mp hq
      obtain ⟨w, hw, hwe⟩ := h.rev q hqm
      have hqid : q.2 ≠ id := by
        intro heq
        rw [heq, holo] at hw
        exact hqne (hwe ▸ congrArg User.email (Option.some.inj hw)).symm
      exact ⟨w, by rw [alookup_aerase_ne hqid]; exact hw, hwe⟩
    · intro p hp
      exact h.fresh p (mem_aerase.mp hp).1

/-- Every reachable user-repository state satisfies the representation
invariant. -/
theorem reachable_inv {s : UserRepoState} (h : Reachable s) : Inv s := by
  induction h with
  | init => exact inv_init
  | create s u now _ ih => exact inv_create s u now ih
  | update s u _ ih => exact inv_update s u ih
  | delete s id _ ih => exact inv_delete s id ih

/-! ### Claim theorems -/

/-- C1: a token issued at time `T` with time-to-live `D = cfg.jwtExpiry`
embeds `expires_at = T + D` and `not_before = T`, validates successfully
(returning its claims) at every check time in the closed interval
`[T, T + D]`, and fails with the `expired` error at every check time
strictly greater than `T + D`. -/
theorem c1_token_lifetime (cfg : Config) (u : User) (T t : Int) :
    (GenerateToken cfg u T).claims.expiresAt = T + cfg.jwtExpiry ∧
    (GenerateToken cfg u T).claims.notBefore = T ∧
    (T ≤ t → t ≤ T + cfg.jwtExpiry →
      ValidateToken cfg (GenerateToken cfg u T) t = .ok (GenerateToken cfg u T).claims) ∧
    (T + cfg.jwtExpiry < t →
      ValidateToken cfg (GenerateToken cfg u T) t = .error .expired) := by
  refine ⟨rfl, rfl, ?_, ?_⟩
  · intro h1 h2
    unfold ValidateToken GenerateToken keyFunc validateClaims
    simp only [JwtAlg.isHMAC, if_true, if_pos rfl]
    rw [if_neg (by omega), if_neg (by omega),
        if_neg (by omega)]
  · intro h3
    unfold ValidateToken GenerateToken keyFunc validateClaims
    simp only [JwtAlg.isHMAC, if_true, if_pos rfl]
    rw [if_pos (by omega)]

/-- C1 witness: with `ttl = 0` a token issued at time 100 validates at
time 100 and is `expired` at time 101, one second after issuance. -/
theorem c1_witness :
    ValidateToken cfg0 (GenerateToken cfg0 user0 100) 100 =
      .ok (GenerateToken cfg0 user0 100).claims ∧
    ValidateToken cfg0 (GenerateToken cfg0 user0 100) 101 = .error .expired :=
  ⟨(c1_token_lifetime cfg0 user0 100 100).2.2.1 (by decide) (by decide),
   (c1_token_lifetime cfg0 user0 100 101).2.2.2 (by decide)⟩

/-- C2: verifying a password against its own hash succeeds, and verifying
any other password against that hash fails (in the ideal bcrypt model,
"with overwhelming probability" becomes certainty). -/
theorem c2_hash_verify (cfg : Config) (salt : Nat) (p1 p2 : String) (hne : p1 ≠ p2) :
    VerifyPassword (HashPassword cfg salt p1) p1 = true ∧
    VerifyPassword (HashPassword cfg salt p1) p2 = false := by
  constructor
  · simp [VerifyPassword, HashPassword, bcryptCompareHashAndPassword,
          bcryptGenerateFromPassword]
  · simp only [VerifyPassword, HashPassword, bcryptCompareHashAndPassword,
               bcryptGenerateFromPassword]
    exact beq_eq_false_iff_ne.mpr hne

/-- C2 witness: the hash of `longenough1` verifies against `longenough1`
and fails against `password2`. -/
theorem c2_witness :
    VerifyPassword (HashPassword cfg0 0 "longenough1") "longenough1" = true ∧
    VerifyPassword (HashPassword cfg0 0 "longenough1") "password2" = false :=
  c2_hash_verify cfg0 0 "longenough1" "password2" (by decide)

/-- C6: a token whose header declares a non-HMAC signing algorithm is
rejected with the algorithm error before any claim is trusted, and the
algorithm field never selects the verification key: on every accepted
(HMAC) algorithm the key function returns the same configured secret. -/
theorem c6_algorithm_check (cfg : Config) (tok : Token) (now : Int)
    (halg : tok.alg.isHMAC = false) :
    ValidateToken cfg tok now = .error .badAlgorithm ∧
    ∀ a1 a2 : JwtAlg, a1.isHMAC = true → a2.isHMAC = true →
      keyFunc cfg a1 = keyFunc cfg a2 := by
  constructor
  · simp [ValidateToken, keyFunc, halg]
  · intro a1 a2 h1 h2
    unfold keyFunc
    rw [h1, h2]

/-- C6 witness: a token declaring RS256 is rejected with the algorithm
error, and HS256 and HS512 select the same key. -/
theorem c6_witness :
    ValidateToken cfg0 tokBad 0 = .error .badAlgorithm ∧
    keyFunc cfg0 .HS256 = keyFunc cfg0 .HS512 := by
  have h := c6_algorithm_check cfg0 tokBad 0 (by decide)
  exact ⟨h.1, h.2 .HS256 .HS512 (by decide) (by decide)⟩

/-- C7: a token issued under one signing secret fails verification under a
configuration with a different signing secret, with the invalid-signature
error and without ever returning the embedded claims. -/
theorem c7_wrong_secret (cfgA cfgB : Config) (u : User) (T t : Int)
    (hne : cfgA.jwtSecret ≠ cfgB.jwtSecret) :
    ValidateToken cfgB (GenerateToken cfgA u T) t = .error .invalidSignature := by
  unfold ValidateToken GenerateToken keyFunc
  simp only [JwtAlg.isHMAC, if_true]
  rw [if_neg (fun h => hne (congrArg MacTag.key h))]

/-- C7 witness: a token signed under secret `s1` is rejected as
invalid-signature under secret `s2`, even inside its validity window. -/
theorem c7_witness :
    ValidateToken cfg1 (GenerateToken cfg0 user0 0) 0 = .error .invalidSignature :=
  c7_wrong_secret cfg0 cfg1 user0 0 0 (by decide)

/-- C8: configuration loading aborts exactly when the environment label is
`production` while the signing secret is still the default; under any other
label it succeeds, and each unset variable among the signing secret, the
token time-to-live and the hashing cost takes its safe default
(the default secret, 24 hours, cost 12). -/
theorem c8_config_load (lookup : String → Option String)
    (atoi parseDuration : String → Option Int) :
    (getEnv lookup "ENV" "development" = "production" →
      getEnv lookup "JWT_SECRET" defaultJWTSecret = defaultJWTSecret →
      Load lookup atoi parseDuration =
        .error "JWT_SECRET must be set in production environment") ∧
    (getEnv lookup "ENV" "development" ≠ "production" →
      ∃ cfg, Load lookup atoi parseDuration = .ok cfg ∧
        (lookup "JWT_SECRET" = none → cfg.jwtSecret = defaultJWTSecret) ∧
        (lookup "JWT_EXPIRY" = none → cfg.jwtExpiry = 86400) ∧
        (lookup "BCRYPT_COST" = none → cfg.bcryptCost = 12)) := by
  constructor
  · intro h1 h2
    simp [Load, h1, h2]
  · intro hne
    have hb : (getEnv lookup "ENV" "development" == "production") = false :=
      beq_eq_false_iff_ne.mpr hne
    refine ⟨{ port := getEnvAsInt lookup atoi "PORT" 8080
              env := getEnv lookup "ENV" "development"
              jwtSecret := getEnv lookup "JWT_SECRET" defaultJWTSecret
              jwtExpiry := getEnvAsDuration lookup parseDuration "JWT_EXPIRY" 86400
              bcryptCost := getEnvAsInt lookup atoi "BCRYPT_COST" 12 },
            ?_, ?_, ?_, ?_⟩
    · simp [Load, hb]
    · intro hnone
      simp [getEnv, hnone]
    · intro hnone
      simp [getEnvAsDuration, hnone]
    · intro hnone
      simp [getEnvAsInt, hnone]

/-- C8 witness: with only `ENV=production` set, loading aborts; with an
empty environment, loading succeeds with every safe default. -/
theorem c8_witness :
    Load envProd (fun _ => none) (fun _ => none) =
      .error "JWT_SECRET must be set in production environment" ∧
    ∃ cfg, Load (fun _ => none) (fun _ => none) (fun _ => none) = .ok cfg ∧
      ((fun _ : String => (none : Option String)) "JWT_SECRET" = none →
        cfg.jwtSecret = defaultJWTSecret) ∧
      ((fun _ : String => (none : Option String)) "JWT_EXPIRY" = none →
        cfg.jwtExpiry = 86400) ∧
      ((fun _ : String => (none : Option String)) "BCRYPT_COST" = none →
        cfg.bcryptCost = 12) :=
  ⟨(c8_config_load envProd (fun _ => none) (fun _ => none)).1 (by decide) (by decide),
   (c8_config_load (fun _ => none) (fun _ => none) (fun _ => none)).2 (by decide)⟩

/-- C4: a login whose email is absent from the store and a login whose
email resolves to a user but whose password fails verification produce the
very same `invalid credentials` error value, so the two failure causes are
indistinguishable to the caller. -/
theorem c4_login_indistinguishable (s : UserRepoState) (r1 r2 : LoginRequest) (u : User)
    (h1 : ∃ e, InMemoryUserRepository.GetByEmail s r1.email = .error e)
    (h2 : InMemoryUserRepository.GetByEmail s r2.email = .ok u)
    (h3 : VerifyPassword u.passwordHash r2.password = false) :
    Login s r1 = .error "invalid credentials" ∧
    Login s r2 = .error "invalid credentials" ∧
    Login s r1 = Login s r2 := by
  obtain ⟨e, he⟩ := h1
  have hl1 : Login s r1 = .error "invalid credentials" := by
    unfold Login
    rw [he]
  have hl2 : Login s r2 = .error "invalid credentials" := by
    unfold Login
    rw [h2]
    simp [h3]
  exact ⟨hl1, hl2, hl1.trans hl2.symm⟩

/-- C4 witness: against the seeded store, a login with an unknown email and
a login with the admin email but a wrong password both return the
`invalid credentials` error. -/
theorem c4_witness :
    Login initialUserRepo { email := "nobody@x.com", password := "pw" } =
      .error "invalid credentials" ∧
    Login initialUserRepo { email := "admin@example.com", password := "wrong" } =
      .error "invalid credentials" := by
  have h := c4_login_indistinguishable initialUserRepo
      { email := "nobody@x.com", password := "pw" }
      { email := "admin@example.com", password := "wrong" } adminUser
      ⟨"user with email nobody@x.com not found", by rfl⟩ (by rfl) (by decide)
  exact ⟨h.1, h.2.1⟩

/-- C5: the authorization gate answers a missing header, a header that is
not an exact two-part `Bearer <token>` pair, and a token failing validation
for any reason, each with status-401 responses, the last with one body that
is independent of the validation failure kind; when validation succeeds it
forwards the request with the verified user id and username attached. -/
theorem c5_authorization_gate (v : String → Except AuthError Claims) (h : String) :
    (h = "" → JWTAuthMiddleware v h = .rejected 401 msgMissingHeader) ∧
    (∀ t, goSplit ' ' h = ["Bearer", t] →
      (∀ e, v t = .error e → JWTAuthMiddleware v h = .rejected 401 msgInvalidToken) ∧
      (∀ c, v t = .ok c → JWTAuthMiddleware v h = .forwarded c.userID c.username)) ∧
    (h ≠ "" → (∀ t, goSplit ' ' h ≠ ["Bearer", t]) →
      JWTAuthMiddleware v h = .rejected 401 msgBadFormat) := by
  refine ⟨?_, ?_, ?_⟩
  · intro hE
    subst hE
    rfl
  · intro t hsp
    have hne : h ≠ "" := by
      intro hE
      subst hE
      rw [show goSplit ' ' "" = [""] from rfl] at hsp
      injection hsp with ha hb
      exact absurd ha (by decide)
    constructor
    · intro e hv
      unfold JWTAuthMiddleware
      rw [if_neg (by simp [hne]), hsp]
      dsimp only
      rw [hv]
      rfl
    · intro c hv
      unfold JWTAuthMiddleware
      rw [if_neg (by simp [hne]), hsp]
      dsimp only
      rw [hv]
      rfl
  · intro hne hall
    unfold JWTAuthMiddleware
    rw [if_neg (by simp [hne])]
    rcases hsp : goSplit ' ' h with _ | ⟨a, _ | ⟨b, _ | ⟨c, rest⟩⟩⟩
    · rfl
    · rfl
    · by_cases hB : a = "Bearer"
      · exact absurd (hB ▸ hsp) (hall b)
      · simp [hB]
    · rfl

/-- C5 witness: a missing header, the header `Basic xyz` and the header
`Bearer garbage` (with a failing validator) are all rejected with status
401 and the respective bodies. -/
theorem c5_witness :
    JWTAuthMiddleware vFail "" = .rejected 401 msgMissingHeader ∧
    JWTAuthMiddleware vFail "Basic xyz" = .rejected 401 msgBadFormat ∧
    JWTAuthMiddleware vFail "Bearer garbage" = .rejected 401 msgInvalidToken := by
  refine ⟨(c5_authorization_gate vFail "").1 rfl, ?_, ?_⟩
  · refine (c5_authorization_gate vFail "Basic xyz").2.2 (by decide) ?_
    intro t heq
    rw [show goSplit ' ' "Basic xyz" = ["Basic", "xyz"] from by decide] at heq
    injection heq with ha hb
    exact absurd ha (by decide)
  · exact ((c5_authorization_gate vFail "Bearer garbage").2.1 "garbage"
      (by decide)).1 .invalidSignature rfl

/-- C9: whenever the new user's username already occurs in the store,
`Create` fails and leaves the state unchanged; when moreover the new email
is absent from the email index, the failure is specifically the
duplicate-username error. -/
theorem c9_username_unique (s : UserRepoState) (u : User) (now : Int) (p : Int × User)
    (hmem : p ∈ s.users) (hname : p.2.username = u.username) :
    (InMemoryUserRepository.Create s u now).1 = s ∧
    (∃ e, (InMemoryUserRepository.Create s u now).2 = .error e) ∧
    (alookup u.email s.emails = none →
      (InMemoryUserRepository.Create s u now).2 =
        .error ("user with username " ++ u.username ++ " already exists")) := by
  have hany : s.users.any (fun q => q.2.username == u.username) = true :=
    List.any_eq_true.mpr ⟨p, hmem, by simp [hname]⟩
  rcases halo : alookup u.email s.emails with _ | uid
  · rw [create_dup_username_eq s u now halo hany]
    exact ⟨rfl, ⟨_, rfl⟩, fun _ => rfl⟩
  · rw [create_dup_email_eq s u now uid halo]
    exact ⟨rfl, ⟨_, rfl⟩, fun hnone => Option.noConfusion hnone⟩

/-- C9 witness: inserting a user named `admin` with a fresh email into the
seeded store fails with the duplicate-username error and leaves the store
unchanged. -/
theorem c9_witness :
    (InMemoryUserRepository.Create initialUserRepo userDupName 0).1 = initialUserRepo ∧
    (InMemoryUserRepository.Create initialUserRepo userDupName 0).2 =
      .error ("user with username " ++ userDupName.username ++ " already exists") := by
  have h := c9_username_unique initialUserRepo userDupName 0 (1, adminUser)
      (by decide) (by decide)
  exact ⟨h.1, h.2.2 (by decide)⟩

/-- In a list with pairwise-distinct emails, filtering by the email of a
member yields exactly one entry. -/
theorem count_email_eq_one {l : List (Int × User)}
    (hpw : l.Pairwise (fun p q => p.2.email ≠ q.2.email))
    {p : Int × User} (hp : p ∈ l) :
    (l.filter (fun q => q.2.email == p.2.email)).length = 1 := by
  induction l with
  | nil => cases hp
  | cons a tl ih =>
    obtain ⟨ha, htl⟩ := List.pairwise_cons.mp hpw
    rcases List.mem_cons.mp hp with rfl | hpt
    · rw [List.filter_cons, if_pos (by simp)]
      have hnil : tl.filter (fun q => q.2.email == p.2.email) = [] := by
        rw [List.filter_eq_nil_iff]
        intro q hq
        simp only [beq_iff_eq]
        exact fun heq => (ha q hq) heq.symm
      rw [hnil]
      rfl
    · rw [List.filter_cons, if_neg (by simp only [beq_iff_eq]; exact fun heq => ha p hpt heq)]
      exact ih htl hpt

/-- C3: in every reachable store state no two entries share an email, and a
registration under an email already present fails with the duplicate-email
error, leaving the state unchanged with exactly one entry carrying that
email. -/
theorem c3_email_uniqueness (s : UserRepoState) (hs : Reachable s) :
    s.users.Pairwise (fun p q => p.2.email ≠ q.2.email) ∧
    ∀ (cfg : Config) (req : CreateUserRequest) (salt : Nat) (now : Int) (p : Int × User),
      p ∈ s.users → p.2.email = req.email →
      Register cfg s req salt now =
        (s, .error "user with this email already exists") ∧
      (s.users.filter (fun q => q.2.email == req.email)).length = 1 := by
  have hinv := reachable_inv hs
  refine ⟨hinv.emailsDistinct, ?_⟩
  intro cfg req salt now p hp hpe
  have hidx := hinv.idx p hp
  rw [hpe] at hidx
  have hp2 : (p.1, p.2) ∈ s.users := by
    rw [Prod.mk.eta]
    exact hp
  have husers : alookup p.1 s.users = some p.2 :=
    alookup_of_mem_keysPW hinv.usersKeys hp2
  constructor
  · unfold Register InMemoryUserRepository.GetByEmail
    rw [hidx]
    dsimp only
    rw [husers]
  · have hcount := count_email_eq_one hinv.emailsDistinct hp
    rw [hpe] at hcount
    exact hcount

/-- C3 witness: the seeded store has pairwise-distinct emails, and
registering a second user under the admin email fails with the
duplicate-email error, keeping exactly one entry for that email. -/
theorem c3_witness :
    initialUserRepo.users.Pairwise (fun p q => p.2.email ≠ q.2.email) ∧
    Register cfg0 initialUserRepo
        { username := "eve", email := "admin@example.com", password := "pw12345678" } 0 5 =
      (initialUserRepo, .error "user with this email already exists") ∧
    (initialUserRepo.users.filter
        (fun q => q.2.email == "admin@example.com")).length = 1 := by
  have h := c3_email_uniqueness initialUserRepo Reachable.init
  have h2 := h.2 cfg0
      { username := "eve", email := "admin@example.com", password := "pw12345678" }
      0 5 (1, adminUser) (by decide) (by decide)
  exact ⟨h.1, h2.1, h2.2⟩

/-- C10 counterexample: on the empty store the request titled `""` matches
no existing task after trimming and lowercasing, yet `CreateTask` returns
an error and adds no task, so a non-duplicate create request does not
always produce a created task. -/
theorem c10_counterexample :
    isDuplicateTitle emptyTaskRepo "" = false ∧
    CreateTask emptyTaskRepo { title := "" } 0 =
      (emptyTaskRepo, Except.error "title is required") := by
  constructor
  · rfl
  · rfl

/-- C10 (amended): when the request title matches some stored title after
trimming and lowercasing, `CreateTask` errors and adds no task; when it
matches none and moreover survives validation (non-blank trimmed title, raw
title of at most 200 bytes), the created task carries the trimmed title and
`completed = false`. -/
theorem c10_duplicate_title (s : TaskRepoState) (req : CreateTaskRequest) (now : Int) :
    (isDuplicateTitle s (trimSpace req.title) = true →
      (CreateTask s req now).1 = s ∧ ∃ e, (CreateTask s req now).2 = .error e) ∧
    (isDuplicateTitle s (trimSpace req.title) = true →
      validateCreateRequest req = .ok () →
      CreateTask s req now =
        (s, .error ("task with title \x27" ++ trimSpace req.title ++ "\x27 already exists"))) ∧
    (isDuplicateTitle s (trimSpace req.title) = false →
      trimSpace req.title ≠ "" → req.title.utf8ByteSize ≤ 200 →
      CreateTask s req now =
        ({ tasks := ainsert s.currentID
             { id := s.currentID, title := trimSpace req.title,
               completed := false, createdAt := now } s.tasks
           currentID := s.currentID + 1 },
         .ok { id := s.currentID, title := trimSpace req.title,
               completed := false, createdAt := now })) := by
  refine ⟨?_, ?_, ?_⟩
  · intro hdup
    cases hv : validateCreateRequest req with
    | error e =>
      unfold CreateTask
      rw [hv]
      exact ⟨rfl, ⟨e, rfl⟩⟩
    | ok u =>
      unfold CreateTask
      rw [hv]
      dsimp only
      rw [hdup, if_pos rfl]
      exact ⟨rfl, ⟨_, rfl⟩⟩
  · intro hdup hv
    unfold CreateTask
    rw [hv]
    dsimp only
    rw [hdup, if_pos rfl]
  · intro hdup hne hlen
    have hv : validateCreateRequest req = .ok () := by
      unfold validateCreateRequest
      rw [if_neg (by simp [hne]), if_neg (by omega)]
    unfold CreateTask
    rw [hv]
    dsimp only
    rw [hdup, if_neg (by simp)]
    rfl

/-- C10 witness: against a store holding `Buy Milk`, the request
`  buy milk  ` is rejected as a duplicate and adds nothing, while the
request `Walk` is created trimmed and not completed. -/
theorem c10_witness :
    CreateTask taskRepo0 { title := "  buy milk  " } 7 =
      (taskRepo0, .error "task with title \x27buy milk\x27 already exists") ∧
    CreateTask taskRepo0 { title := "Walk" } 7 =
      ({ tasks := ainsert 2 { id := 2, title := "Walk", completed := false, createdAt := 7 }
           taskRepo0.tasks
         currentID := 3 },
       .ok { id := 2, title := "Walk", completed := false, createdAt := 7 }) := by
  constructor
  · exact (c10_duplicate_title taskRepo0 { title := "  buy milk  " } 7).2.1
      (by decide) (by rfl)
  · exact (c10_duplicate_title taskRepo0 { title := "Walk" } 7).2.2
      (by decide) (by decide) (by decide)

end TasksCrud
